import Mathlib

set_option maxRecDepth 8000

/-!
Verification of the oracle-manager-ui data-access hooks.

This file shallowly embeds the two source files of the repository:

* `useCollateralTypes.ts`: zod schemas for collateral configurations, the
  batched symbol and price loaders, the positional join producing
  `CollateralType` records, the `useCollateralTypes` filter and the
  `useCollateralType` selector.
* `contracts/src/importPerpsMarketProxy.ts`: the switch on the template
  string formed from a chain id and a preset.

Network effects are made explicit: each loader takes the (already decoded)
dynamic values returned by the contract calls as a parameter, and fallible
parsing is modelled with `Except`.  Machine integers (`BigNumber` values,
which are unsigned 256-bit words on chain) are modelled as `Int` as the
JavaScript BigNumber library performs arbitrary-precision arithmetic.
-/

/-- Model of a value of the `@synthetixio/wei` library with its default 18
decimal places: `wei(x)` applied to a BigNumber wraps the already scaled
integer `x`.  The hooks only ever construct 18-decimal values, so the
precision field is left implicit. -/
structure Wei where
  bn : Int
deriving DecidableEq

/-- The `wei` constructor applied to a BigNumber: the input is interpreted as
the scaled integer itself (18 implied decimal places). -/
def wei (x : Int) : Wei := ⟨x⟩

/-- The decimal value represented by a `Wei`: the scaled integer divided by
`10 ^ 18`, computed exactly in `ℚ`. -/
def Wei.toNumber (w : Wei) : ℚ := (w.bn : ℚ) / 10 ^ 18

/-- `Wei.lt` with a BigNumber argument: the argument is converted with `wei`
and the scaled integers are compared. -/
def Wei.lt (a : Wei) (other : Int) : Bool := a.bn < (wei other).bn

/-- `ethers.constants.MaxUint256`, the largest 256-bit unsigned integer. -/
def MaxUint256 : Int := 2 ^ 256 - 1

/-- An untyped JavaScript value as seen by the zod schemas: the decoded
result of a contract call before validation.  A value whose constructor does
not match the expected schema models both a decode producing a value of the
wrong shape and a schema violation. -/
inductive RawValue
  | bool (b : Bool)
  | bignum (n : Int)
  | str (s : String)
  | null
deriving DecidableEq

/-- `ZodBigNumber`: accepts a BigNumber value, rejects anything else. -/
def ZodBigNumber.parse : RawValue → Except String Int
  | .bignum n => Except.ok n
  | _ => Except.error "Expected BigNumber"

/-- `z.boolean()`: accepts a boolean value, rejects anything else. -/
def ZodBoolean.parse : RawValue → Except String Bool
  | .bool b => Except.ok b
  | _ => Except.error "Expected boolean"

/-- `z.string()`: accepts a string value, rejects anything else. -/
def ZodString.parse : RawValue → Except String String
  | .str s => Except.ok s
  | _ => Except.error "Expected string"

/-- `const SymbolSchema = z.string()`. -/
def SymbolSchema.parse : RawValue → Except String String := ZodString.parse

/-- `const PriceSchema = ZodBigNumber.transform((x) => wei(x))`. -/
def PriceSchema.parse (v : RawValue) : Except String Wei :=
  (ZodBigNumber.parse v).map wei

/-- A raw collateral configuration record as returned by
`CoreProxy.getCollateralConfigurations`, before validation by
`CollateralConfigurationSchema`. -/
structure RawCollateralConfiguration where
  depositingEnabled : RawValue
  issuanceRatioD18 : RawValue
  liquidationRatioD18 : RawValue
  liquidationRewardD18 : RawValue
  oracleNodeId : RawValue
  tokenAddress : RawValue
  minDelegationD18 : RawValue
deriving DecidableEq

/-- A validated collateral configuration, the output type of
`CollateralConfigurationSchema`. -/
structure CollateralConfiguration where
  depositingEnabled : Bool
  issuanceRatioD18 : Wei
  liquidationRatioD18 : Wei
  liquidationRewardD18 : Wei
  oracleNodeId : String
  tokenAddress : String
  minDelegationD18 : Wei
deriving DecidableEq

/-- `CollateralConfigurationSchema.parse`: validates every field, requiring
`tokenAddress` to be a string starting with `0x`, and wrapping each
BigNumber field with `wei`. -/
def CollateralConfigurationSchema.parse (raw : RawCollateralConfiguration) :
    Except String CollateralConfiguration := do
  let depositingEnabled ← ZodBoolean.parse raw.depositingEnabled
  let issuanceRatioD18 ← (ZodBigNumber.parse raw.issuanceRatioD18).map wei
  let liquidationRatioD18 ← (ZodBigNumber.parse raw.liquidationRatioD18).map wei
  let liquidationRewardD18 ← (ZodBigNumber.parse raw.liquidationRewardD18).map wei
  let oracleNodeId ← ZodString.parse raw.oracleNodeId
  let tokenAddress ← ZodString.parse raw.tokenAddress
  if tokenAddress.startsWith "0x" then
    let minDelegationD18 ← (ZodBigNumber.parse raw.minDelegationD18).map wei
    Except.ok { depositingEnabled := depositingEnabled
                issuanceRatioD18 := issuanceRatioD18
                liquidationRatioD18 := liquidationRatioD18
                liquidationRewardD18 := liquidationRewardD18
                oracleNodeId := oracleNodeId
                tokenAddress := tokenAddress
                minDelegationD18 := minDelegationD18 }
  else
    Except.error "String must start with 0x"

/-- `CollateralTypeSchema` output: a configuration extended with symbol,
display symbol and price. -/
structure CollateralType extends CollateralConfiguration where
  symbol : String
  displaySymbol : String
  price : Wei
deriving DecidableEq

/-- `loadSymbols`: decodes every entry of the multicall return data against
`SymbolSchema`; a JavaScript `.map` whose callback throws aborts the whole
call, hence `mapM` in `Except`. -/
def loadSymbols (returnData : List RawValue) : Except String (List String) :=
  returnData.mapM SymbolSchema.parse

/-- `loadPrices`: decodes every entry of the multicall result against
`PriceSchema`. -/
def loadPrices (multicallResult : List RawValue) : Except String (List Wei) :=
  multicallResult.mapM PriceSchema.parse

/-- The final join of `loadCollateralTypes`:
`tokenConfigs.map((config, i) => ({...config fields, price: prices[i],
symbol: symbols[i], displaySymbol: symbols[i] === 'WETH' ? 'ETH' :
symbols[i]}))`.  Indexing is total in Lean, so `getD` is used; all claims
about the join address indices below the lengths of `symbols` and `prices`,
where `getD` agrees with JavaScript indexing. -/
def collateralTypesJoin (tokenConfigs : List CollateralConfiguration)
    (symbols : List String) (prices : List Wei) : List CollateralType :=
  tokenConfigs.mapIdx fun i config =>
    { depositingEnabled := config.depositingEnabled
      issuanceRatioD18 := config.issuanceRatioD18
      liquidationRatioD18 := config.liquidationRatioD18
      liquidationRewardD18 := config.liquidationRewardD18
      minDelegationD18 := config.minDelegationD18
      oracleNodeId := config.oracleNodeId
      tokenAddress := config.tokenAddress
      price := prices.getD i (wei 0)
      symbol := symbols.getD i ""
      displaySymbol := if symbols.getD i "" = "WETH" then "ETH" else symbols.getD i "" }

/-- `loadCollateralTypes` with the network made explicit: takes the raw
configuration records returned by `getCollateralConfigurations` and the two
multicall result arrays, validates everything, and joins positionally. -/
def loadCollateralTypes (tokenConfigsRaw : List RawCollateralConfiguration)
    (symbolReturnData : List RawValue) (priceMulticallResult : List RawValue) :
    Except String (List CollateralType) := do
  let tokenConfigs ← tokenConfigsRaw.mapM CollateralConfigurationSchema.parse
  let symbols ← loadSymbols symbolReturnData
  let prices ← loadPrices priceMulticallResult
  return collateralTypesJoin tokenConfigs symbols prices

/-- The post-load filter of the `useCollateralTypes` query: with
`includeDelegationOff` set the loaded list is returned unchanged; by default
records with symbol `sUSD` or `snxUSD` are dropped and only records with
`minDelegationD18 < MaxUint256` are kept. -/
def useCollateralTypes (collateralTypes : List CollateralType)
    (includeDelegationOff : Bool := false) : List CollateralType :=
  if includeDelegationOff then
    collateralTypes
  else
    collateralTypes.filter fun x =>
      if x.symbol == "sUSD" || x.symbol == "snxUSD" then false
      else x.minDelegationD18.lt MaxUint256

/-- JavaScript's `String.prototype.toLowerCase`, modelled as character-wise
lowering of the string's characters. -/
def String.toLowerCase (s : String) : String := ⟨s.data.map Char.toLower⟩

/-- The selector of `useCollateralType` applied to the loaded collection: an
absent (or, JavaScript falsiness, empty) symbol yields the first record, an
empty collection yields nothing, otherwise a case-insensitive `find`. -/
def useCollateralType (collateralTypes : List CollateralType)
    (collateralSymbol : Option String := none) : Option CollateralType :=
  if collateralTypes.length = 0 then
    none
  else
    match collateralSymbol with
    | none => collateralTypes[0]?
    | some s =>
      if s = "" then collateralTypes[0]?
      else collateralTypes.find? fun collateral => collateral.symbol.toLowerCase == s.toLowerCase

/-- The statically known contract-binding modules of the import map. -/
inductive PerpsMarketProxyModule
  | perpsMarketProxy420Main
  | perpsMarketProxy84531Competition
deriving DecidableEq

/-- `importPerpsMarketProxy`: switch on the template string
`chainId + "-" + preset`; the two known keys resolve to their binding
modules, everything else throws. -/
def importPerpsMarketProxy (chainId : Nat) (preset : String := "main") :
    Except String PerpsMarketProxyModule :=
  let key := Nat.repr chainId ++ "-" ++ preset
  if key = "420-main" then
    Except.ok PerpsMarketProxyModule.perpsMarketProxy420Main
  else if key = "84531-competition" then
    Except.ok PerpsMarketProxyModule.perpsMarketProxy84531Competition
  else
    Except.error ("Unsupported chain " ++ Nat.repr chainId ++ " for PerpsMarketProxy")

/-! ### Sample data used by witnesses and counterexamples -/

/-- A concrete validated collateral configuration. -/
def sampleConfig : CollateralConfiguration :=
  { depositingEnabled := true
    issuanceRatioD18 := wei 2
    liquidationRatioD18 := wei 3
    liquidationRewardD18 := wei 4
    oracleNodeId := "node-1"
    tokenAddress := "0x0000000000000000000000000000000000000001"
    minDelegationD18 := wei 5 }

/-- A concrete collateral-type record with symbol `SNX`. -/
def sampleSNX : CollateralType :=
  { toCollateralConfiguration := sampleConfig
    symbol := "SNX"
    displaySymbol := "SNX"
    price := wei 7 }

/-- A concrete collateral-type record whose minimum delegation equals
`MaxUint256`, i.e. delegation is disabled. -/
def sampleDelegationOff : CollateralType :=
  { toCollateralConfiguration := { sampleConfig with minDelegationD18 := wei MaxUint256 }
    symbol := "WETH"
    displaySymbol := "ETH"
    price := wei 7 }

/-! ### Helper lemmas about `mapM` over `Except` -/

/-- `mapM` over `Except` succeeds exactly when every element parses, with the
outputs aligned pointwise. -/
theorem mapM_ok_iff_forall2 {α β : Type} {f : α → Except String β} {l : List α} :
    ∀ {l' : List β},
      l.mapM f = Except.ok l' ↔ List.Forall₂ (fun a b => f a = Except.ok b) l l' := by
  rw [← List.mapM'_eq_mapM]
  induction l with
  | nil =>
    intro l'
    constructor
    · intro h
      cases Except.ok.inj h
      exact List.Forall₂.nil
    · intro h
      cases h
      rfl
  | cons a t ih =>
    intro l'
    constructor
    · intro h
      simp only [List.mapM'_cons] at h
      cases hfa : f a with
      | error e =>
        rw [hfa] at h
        exact absurd h (by simp [Bind.bind, Except.bind])
      | ok b =>
        rw [hfa] at h
        cases hbs : t.mapM' f with
        | error e =>
          rw [hbs] at h
          exact absurd h (by simp [Bind.bind, Except.bind])
        | ok bs =>
          rw [hbs] at h
          have h' : Except.ok (b :: bs) = Except.ok l' := h
          cases Except.ok.inj h'
          exact List.Forall₂.cons hfa (ih.mp hbs)
    · intro h
      cases h with
      | cons hab htl =>
        simp only [List.mapM'_cons]
        rw [hab, ih.mpr htl]
        rfl

/-- Pointwise relation gives a partner for every member of the left list. -/
theorem forall2_exists_of_mem_left {α β : Type} {R : α → β → Prop} {l : List α} {l' : List β}
    (h : List.Forall₂ R l l') : ∀ x ∈ l, ∃ y, R x y := by
  induction h with
  | nil => intro x hx; cases hx
  | cons hab htl ih =>
    intro x hx
    rcases List.mem_cons.mp hx with rfl | hx'
    · exact ⟨_, hab⟩
    · exact ih x hx'

/-- If one element of the list fails to parse, the whole `mapM` fails. -/
theorem mapM_error_of_mem {α β : Type} {f : α → Except String β} {l : List α} {x : α}
    (hx : x ∈ l) (hfail : ∀ b, f x ≠ Except.ok b) : ∃ e, l.mapM f = Except.error e := by
  cases h : l.mapM f with
  | error e => exact ⟨e, rfl⟩
  | ok l' =>
    obtain ⟨b, hb⟩ := forall2_exists_of_mem_left (mapM_ok_iff_forall2.mp h) x hx
    exact absurd hb (hfail b)

/-- Decompose a successful `Except` bind into its two successful stages. -/
theorem except_bind_ok {α β : Type} {x : Except String α} {g : α → Except String β} {v : β}
    (h : x >>= g = Except.ok v) : ∃ a, x = Except.ok a ∧ g a = Except.ok v := by
  cases x with
  | error e => exact absurd h (by simp [Bind.bind, Except.bind])
  | ok a => exact ⟨a, rfl, h⟩

/-! ### Claims about the `useCollateralTypes` filter -/

/-- Claim C2: with the default `includeDelegationOff = false`, every record
whose `minDelegationD18` equals `MaxUint256` is removed by the
`useCollateralTypes` filter; with `includeDelegationOff = true` the full
list is returned with no record removed. -/
theorem useCollateralTypes_delegation_filter (ts : List CollateralType) :
    (∀ r ∈ ts, r.minDelegationD18 = wei MaxUint256 → r ∉ useCollateralTypes ts false) ∧
      useCollateralTypes ts true = ts := by
  constructor
  · intro r _ hmax hmem
    have hmem' : r ∈ ts.filter fun x =>
        if x.symbol == "sUSD" || x.symbol == "snxUSD" then false
        else x.minDelegationD18.lt MaxUint256 := hmem
    have hp := (List.mem_filter.mp hmem').2
    rw [hmax] at hp
    by_cases hcase : (r.symbol == "sUSD" || r.symbol == "snxUSD") = true
    · rw [if_pos hcase] at hp
      exact Bool.false_ne_true hp
    · rw [if_neg hcase] at hp
      simp [Wei.lt, wei] at hp
  · rfl

/-- Claim C2 witness: a record with delegation disabled is dropped from a
concrete singleton list under the default filter. -/
theorem useCollateralTypes_delegation_filter_witness :
    sampleDelegationOff ∈ [sampleDelegationOff] ∧
      sampleDelegationOff.minDelegationD18 = wei MaxUint256 ∧
      sampleDelegationOff ∉ useCollateralTypes [sampleDelegationOff] false :=
  ⟨List.mem_singleton.mpr rfl, rfl,
    (useCollateralTypes_delegation_filter [sampleDelegationOff]).1 sampleDelegationOff
      (List.mem_singleton.mpr rfl) rfl⟩

/-- Claim C8: under the default filter no surviving record has symbol `sUSD`
or `snxUSD`, and with `includeDelegationOff = true` the exclusions do not
apply (the full list is returned). -/
theorem useCollateralTypes_symbol_exclusions (ts : List CollateralType) :
    (∀ r ∈ useCollateralTypes ts false, r.symbol ≠ "sUSD" ∧ r.symbol ≠ "snxUSD") ∧
      useCollateralTypes ts true = ts := by
  constructor
  · intro r hmem
    have hmem' : r ∈ ts.filter fun x =>
        if x.symbol == "sUSD" || x.symbol == "snxUSD" then false
        else x.minDelegationD18.lt MaxUint256 := hmem
    have hp := (List.mem_filter.mp hmem').2
    by_cases hcase : (r.symbol == "sUSD" || r.symbol == "snxUSD") = true
    · rw [if_pos hcase] at hp
      exact absurd hp Bool.false_ne_true
    · simp only [Bool.or_eq_true, beq_iff_eq] at hcase
      push_neg at hcase
      exact hcase
  · rfl

/-- Claim C8 witness: a surviving record of a concrete filtered list indeed
has neither excluded symbol. -/
theorem useCollateralTypes_symbol_exclusions_witness :
    sampleSNX ∈ useCollateralTypes [sampleSNX] false ∧
      sampleSNX.symbol ≠ "sUSD" ∧ sampleSNX.symbol ≠ "snxUSD" :=
  have hmem : sampleSNX ∈ useCollateralTypes [sampleSNX] false := by decide
  ⟨hmem, (useCollateralTypes_symbol_exclusions [sampleSNX]).1 sampleSNX hmem⟩

/-- Claim C10: omitting the `preset` argument behaves exactly as passing
`"main"`; in particular chain 420 with the preset omitted resolves to the
420-main binding module rather than throwing. -/
theorem importPerpsMarketProxy_default_preset :
    (∀ chainId : Nat, importPerpsMarketProxy chainId = importPerpsMarketProxy chainId "main") ∧
      importPerpsMarketProxy 420 = Except.ok PerpsMarketProxyModule.perpsMarketProxy420Main :=
  ⟨fun _ => rfl, rfl⟩

/-! ### Claims about the `useCollateralType` selector -/

/-- Claim C4: the selector returns nothing on an empty collection, returns
the first record of a non-empty collection when no symbol is given, and
matches by symbol case-insensitively: the result is invariant under changing
the case of the queried symbol, and any returned record matches the queried
symbol up to case. -/
theorem useCollateralType_selector_spec :
    (∀ sym, useCollateralType [] sym = none) ∧
      (∀ ts : List CollateralType, ts ≠ [] → useCollateralType ts none = ts[0]?) ∧
      (∀ (ts : List CollateralType) (s t : String), s ≠ "" → t ≠ "" →
        s.toLowerCase = t.toLowerCase →
        useCollateralType ts (some s) = useCollateralType ts (some t)) ∧
      (∀ (ts : List CollateralType) (s : String) (r : CollateralType), s ≠ "" →
        useCollateralType ts (some s) = some r → r.symbol.toLowerCase = s.toLowerCase) := by
  refine ⟨fun sym => rfl, ?_, ?_, ?_⟩
  · intro ts h
    rw [useCollateralType, if_neg (fun hlen => h (List.length_eq_zero.mp hlen))]
  · intro ts s t hs ht hlow
    by_cases hlen : ts.length = 0
    · rw [useCollateralType, if_pos hlen, useCollateralType, if_pos hlen]
    · rw [useCollateralType, if_neg hlen, useCollateralType, if_neg hlen]
      show (if s = "" then ts[0]? else ts.find? fun c => c.symbol.toLowerCase == s.toLowerCase)
          = if t = "" then ts[0]? else ts.find? fun c => c.symbol.toLowerCase == t.toLowerCase
      rw [if_neg hs, if_neg ht, hlow]
  · intro ts s r hs hsel
    by_cases hlen : ts.length = 0
    · rw [useCollateralType, if_pos hlen] at hsel
      cases hsel
    · rw [useCollateralType, if_neg hlen] at hsel
      have hsel' : (if s = "" then ts[0]?
          else ts.find? fun c => c.symbol.toLowerCase == s.toLowerCase) = some r := hsel
      rw [if_neg hs] at hsel'
      have hfound := List.find?_some hsel'
      simpa using hfound

/-- Claim C4 witness: the three hypotheses discharged on concrete data. -/
theorem useCollateralType_selector_spec_witness :
    useCollateralType [sampleSNX] none = [sampleSNX][0]? ∧
      useCollateralType [sampleSNX] (some "snx") = useCollateralType [sampleSNX] (some "SNX") ∧
      sampleSNX.symbol.toLowerCase = "snx".toLowerCase :=
  ⟨useCollateralType_selector_spec.2.1 [sampleSNX] (by decide),
    useCollateralType_selector_spec.2.2.1 [sampleSNX] "snx" "SNX" (by decide) (by decide)
      (by decide),
    useCollateralType_selector_spec.2.2.2 [sampleSNX] "snx" sampleSNX (by decide) (by decide)⟩

/-- Claim C5 counterexample: a non-empty collection and an input symbol for
which the selector returns no record at all — it does not default to the
first record on a failed match. -/
theorem useCollateralType_no_default_counterexample :
    [sampleSNX] ≠ ([] : List CollateralType) ∧
      useCollateralType [sampleSNX] (some "FOO") = none := by
  constructor
  · decide
  · rfl

/-- Claim C5 as amended: for a non-empty collection and a non-empty input
symbol the selector returns a case-insensitively matching record when one
exists, and returns no record (rather than defaulting to the first one) when
no record matches. -/
theorem useCollateralType_match_or_none (ts : List CollateralType) (s : String)
    (hne : ts ≠ []) (hs : s ≠ "") :
    ((∃ c ∈ ts, c.symbol.toLowerCase = s.toLowerCase) →
      ∃ r, useCollateralType ts (some s) = some r ∧ r.symbol.toLowerCase = s.toLowerCase) ∧
      ((∀ c ∈ ts, c.symbol.toLowerCase ≠ s.toLowerCase) → useCollateralType ts (some s) = none) := by
  have hlen : ¬ts.length = 0 := fun hlen => hne (List.length_eq_zero.mp hlen)
  have hform : useCollateralType ts (some s) =
      ts.find? fun c => c.symbol.toLowerCase == s.toLowerCase := by
    rw [useCollateralType, if_neg hlen]
    show (if s = "" then ts[0]? else ts.find? fun c => c.symbol.toLowerCase == s.toLowerCase) = _
    rw [if_neg hs]
  constructor
  · intro ⟨c, hc, hmatch⟩
    have hsome : (ts.find? fun c => c.symbol.toLowerCase == s.toLowerCase).isSome := by
      rw [List.find?_isSome]
      exact ⟨c, hc, by simpa using hmatch⟩
    obtain ⟨r, hr⟩ := Option.isSome_iff_exists.mp hsome
    refine ⟨r, hform.trans hr, ?_⟩
    simpa using List.find?_some hr
  · intro hnone
    rw [hform, List.find?_eq_none]
    intro c hc
    simpa using hnone c hc

/-- Claim C5 (amended) witness: both branches exercised on concrete data. -/
theorem useCollateralType_match_or_none_witness :
    (∃ r, useCollateralType [sampleSNX] (some "snx") = some r ∧
      r.symbol.toLowerCase = "snx".toLowerCase) ∧
      useCollateralType [sampleSNX] (some "FOO") = none :=
  ⟨(useCollateralType_match_or_none [sampleSNX] "snx" (by decide) (by decide)).1
      ⟨sampleSNX, List.mem_singleton.mpr rfl, by decide⟩,
    (useCollateralType_match_or_none [sampleSNX] "FOO" (by decide) (by decide)).2
      (by intro c hc; rw [List.mem_singleton.mp hc]; decide)⟩

/-! ### Claims about the positional join -/

/-- The record produced by the join at a valid configuration index. -/
theorem collateralTypesJoin_getElem (configs : List CollateralConfiguration)
    (symbols : List String) (prices : List Wei) (i : Nat) (hi : i < configs.length) :
    (collateralTypesJoin configs symbols prices)[i]? = some
      { depositingEnabled := configs[i].depositingEnabled
        issuanceRatioD18 := configs[i].issuanceRatioD18
        liquidationRatioD18 := configs[i].liquidationRatioD18
        liquidationRewardD18 := configs[i].liquidationRewardD18
        minDelegationD18 := configs[i].minDelegationD18
        oracleNodeId := configs[i].oracleNodeId
        tokenAddress := configs[i].tokenAddress
        price := prices.getD i (wei 0)
        symbol := symbols.getD i ""
        displaySymbol := if symbols.getD i "" = "WETH" then "ETH" else symbols.getD i "" } := by
  simp only [collateralTypesJoin, List.getElem?_mapIdx, List.getElem?_eq_getElem hi,
    Option.map_some']

/-- Claim C1: for equal-length configuration, symbol and price lists the join
produces exactly one record per configuration, in order: the record at index
`i` carries the configuration at index `i` unchanged together with the
symbol and price at index `i`. -/
theorem collateralTypesJoin_zip_spec
    (configs : List CollateralConfiguration) (symbols : List String) (prices : List Wei)
    (hs : symbols.length = configs.length) (hp : prices.length = configs.length) :
    (collateralTypesJoin configs symbols prices).length = configs.length ∧
      ∀ i, i < configs.length →
        ∃ r, (collateralTypesJoin configs symbols prices)[i]? = some r ∧
          configs[i]? = some r.toCollateralConfiguration ∧
          symbols[i]? = some r.symbol ∧ prices[i]? = some r.price := by
  constructor
  · simp [collateralTypesJoin]
  · intro i hi
    have hc : configs[i]? = some configs[i] := List.getElem?_eq_getElem hi
    have hsym : symbols[i]? = some (symbols.get ⟨i, hs ▸ hi⟩) :=
      List.getElem?_eq_getElem (hs ▸ hi)
    have hpr : prices[i]? = some (prices.get ⟨i, hp ▸ hi⟩) :=
      List.getElem?_eq_getElem (hp ▸ hi)
    refine ⟨_, collateralTypesJoin_getElem configs symbols prices i hi, ?_, ?_, ?_⟩
    · exact hc
    · show symbols[i]? = some (symbols.getD i "")
      rw [List.getD_eq_getElem?_getD, hsym]
      rfl
    · show prices[i]? = some (prices.getD i (wei 0))
      rw [List.getD_eq_getElem?_getD, hpr]
      rfl

/-- Claim C1 witness: the join of concrete singleton lists. -/
theorem collateralTypesJoin_zip_spec_witness :
    (collateralTypesJoin [sampleConfig] ["SNX"] [wei 7]).length = 1 ∧
      ∃ r, (collateralTypesJoin [sampleConfig] ["SNX"] [wei 7])[0]? = some r ∧
        [sampleConfig][0]? = some r.toCollateralConfiguration ∧
        ["SNX"][0]? = some r.symbol ∧ [wei 7][0]? = some r.price :=
  have h := collateralTypesJoin_zip_spec [sampleConfig] ["SNX"] [wei 7] rfl rfl
  ⟨h.1, h.2 0 (by decide)⟩

/-- Claim C6: in the join, the record at any index with symbol exactly
`WETH` gets display symbol `ETH`, any other symbol yields a display symbol
equal to the symbol, and the `symbol` field itself is the input symbol,
never rewritten. -/
theorem collateralTypesJoin_displaySymbol
    (configs : List CollateralConfiguration) (symbols : List String) (prices : List Wei)
    (i : Nat) (s : String) (hsym : symbols[i]? = some s) (hi : i < configs.length) :
    ∃ r, (collateralTypesJoin configs symbols prices)[i]? = some r ∧
      r.symbol = s ∧ r.displaySymbol = (if s = "WETH" then "ETH" else s) := by
  have hgd : symbols.getD i "" = s := by
    rw [List.getD_eq_getElem?_getD, hsym]
    rfl
  refine ⟨_, collateralTypesJoin_getElem configs symbols prices i hi, ?_, ?_⟩
  · exact hgd
  · show (if symbols.getD i "" = "WETH" then "ETH" else symbols.getD i "")
        = if s = "WETH" then "ETH" else s
    rw [hgd]

/-- Claim C6 witness: the `WETH` rename and a pass-through symbol on
concrete data. -/
theorem collateralTypesJoin_displaySymbol_witness :
    (∃ r, (collateralTypesJoin [sampleConfig] ["WETH"] [wei 7])[0]? = some r ∧
      r.symbol = "WETH" ∧ r.displaySymbol = (if "WETH" = "WETH" then "ETH" else "WETH")) ∧
      ∃ r, (collateralTypesJoin [sampleConfig] ["SNX"] [wei 7])[0]? = some r ∧
        r.symbol = "SNX" ∧ r.displaySymbol = (if "SNX" = "WETH" then "ETH" else "SNX") :=
  ⟨collateralTypesJoin_displaySymbol [sampleConfig] ["WETH"] [wei 7] 0 "WETH" rfl (by decide),
    collateralTypesJoin_displaySymbol [sampleConfig] ["SNX"] [wei 7] 0 "SNX" rfl (by decide)⟩

/-! ### Claims about the loaders -/

/-- Claim C9: every price returned by `loadPrices` is the decoded scaled
integer wrapped as an 18-decimal fixed-point value, whose decimal value is
exactly the decoded integer divided by `10 ^ 18`. -/
theorem loadPrices_fixed_point (raws : List RawValue) (ws : List Wei)
    (h : loadPrices raws = Except.ok ws) :
    List.Forall₂ (fun raw w => ∃ n : Int, raw = RawValue.bignum n ∧ w = wei n ∧
      w.toNumber = (n : ℚ) / 10 ^ 18) raws ws := by
  have h2 := mapM_ok_iff_forall2.mp h
  refine h2.imp ?_
  intro raw w hw
  cases raw with
  | bignum n =>
    have hw' : Except.ok (wei n) = Except.ok w := hw
    obtain rfl : w = wei n := (Except.ok.inj hw').symm
    exact ⟨n, rfl, rfl, rfl⟩
  | bool b => simp [PriceSchema.parse, ZodBigNumber.parse, Except.map] at hw
  | str s => simp [PriceSchema.parse, ZodBigNumber.parse, Except.map] at hw
  | null => simp [PriceSchema.parse, ZodBigNumber.parse, Except.map] at hw

/-- Claim C9 witness: a concrete decoded price. -/
theorem loadPrices_fixed_point_witness :
    loadPrices [RawValue.bignum 3] = Except.ok [wei 3] ∧
      List.Forall₂ (fun raw w => ∃ n : Int, raw = RawValue.bignum n ∧ w = wei n ∧
        w.toNumber = (n : ℚ) / 10 ^ 18) [RawValue.bignum 3] [wei 3] :=
  ⟨rfl, loadPrices_fixed_point [RawValue.bignum 3] [wei 3] rfl⟩

/-- Claim C7: `loadCollateralTypes` is all-or-nothing.  A successful result
certifies that every configuration record, every symbol and every price
decoded successfully; conversely if any single element fails to validate,
the whole operation fails with an error, never a partial result. -/
theorem loadCollateralTypes_all_or_nothing
    (tokenConfigsRaw : List RawCollateralConfiguration)
    (symbolReturnData priceMulticallResult : List RawValue) :
    (∀ out,
      loadCollateralTypes tokenConfigsRaw symbolReturnData priceMulticallResult =
          Except.ok out →
        (∀ r ∈ tokenConfigsRaw, ∃ c, CollateralConfigurationSchema.parse r = Except.ok c) ∧
        (∀ v ∈ symbolReturnData, ∃ s, SymbolSchema.parse v = Except.ok s) ∧
        (∀ v ∈ priceMulticallResult, ∃ w, PriceSchema.parse v = Except.ok w)) ∧
      (((∃ r ∈ tokenConfigsRaw, ∀ c, CollateralConfigurationSchema.parse r ≠ Except.ok c) ∨
        (∃ v ∈ symbolReturnData, ∀ s, SymbolSchema.parse v ≠ Except.ok s) ∨
        (∃ v ∈ priceMulticallResult, ∀ w, PriceSchema.parse v ≠ Except.ok w)) →
        ∃ e, loadCollateralTypes tokenConfigsRaw symbolReturnData priceMulticallResult =
          Except.error e) := by
  have part1 : ∀ out,
      loadCollateralTypes tokenConfigsRaw symbolReturnData priceMulticallResult =
          Except.ok out →
        (∀ r ∈ tokenConfigsRaw, ∃ c, CollateralConfigurationSchema.parse r = Except.ok c) ∧
        (∀ v ∈ symbolReturnData, ∃ s, SymbolSchema.parse v = Except.ok s) ∧
        (∀ v ∈ priceMulticallResult, ∃ w, PriceSchema.parse v = Except.ok w) := by
    intro out h
    obtain ⟨tc, htc, h1⟩ := except_bind_ok h
    obtain ⟨syms, hsyms, h2⟩ := except_bind_ok h1
    obtain ⟨ps, hps, _⟩ := except_bind_ok h2
    have hsyms' : symbolReturnData.mapM SymbolSchema.parse = Except.ok syms := hsyms
    have hps' : priceMulticallResult.mapM PriceSchema.parse = Except.ok ps := hps
    exact ⟨forall2_exists_of_mem_left (mapM_ok_iff_forall2.mp htc),
      forall2_exists_of_mem_left (mapM_ok_iff_forall2.mp hsyms'),
      forall2_exists_of_mem_left (mapM_ok_iff_forall2.mp hps')⟩
  refine ⟨part1, ?_⟩
  intro hfail
  cases hres : loadCollateralTypes tokenConfigsRaw symbolReturnData priceMulticallResult with
  | error e => exact ⟨e, rfl⟩
  | ok out =>
    obtain ⟨hc, hs, hp⟩ := part1 out hres
    rcases hfail with ⟨r, hr, hbad⟩ | ⟨v, hv, hbad⟩ | ⟨v, hv, hbad⟩
    · obtain ⟨c, hok⟩ := hc r hr
      exact absurd hok (hbad c)
    · obtain ⟨s, hok⟩ := hs v hv
      exact absurd hok (hbad s)
    · obtain ⟨w, hok⟩ := hp v hv
      exact absurd hok (hbad w)

/-- Claim C7 witness: one malformed symbol entry makes the whole load fail. -/
theorem loadCollateralTypes_all_or_nothing_witness :
    (∃ v ∈ [RawValue.null], ∀ s, SymbolSchema.parse v ≠ Except.ok s) ∧
      ∃ e, loadCollateralTypes [] [RawValue.null] [] = Except.error e :=
  have hbad : ∃ v ∈ [RawValue.null], ∀ s, SymbolSchema.parse v ≠ Except.ok s :=
    ⟨RawValue.null, List.mem_singleton.mpr rfl,
      fun s h => by simp [SymbolSchema.parse, ZodString.parse] at h⟩
  ⟨hbad, (loadCollateralTypes_all_or_nothing [] [RawValue.null] []).2 (Or.inr (Or.inl hbad))⟩

/-! ### Decimal representation of chain ids

The import-map key is the template string `chainId + "-" + preset`.  To show
that only the two listed pairs resolve, we relate `Nat.repr` to `Nat.digits`
and prove that a decimal representation never contains a dash and is
injective, so the key determines the pair. -/

/-- Digit characters of digits below ten are never the dash. -/
theorem digitChar_lt_ten_ne_dash : ∀ d < 10, Nat.digitChar d ≠ '-' := by decide

/-- `Nat.digitChar` is injective below ten. -/
theorem digitChar_inj_lt_ten :
    ∀ d < 10, ∀ e < 10, Nat.digitChar d = Nat.digitChar e → d = e := by decide

/-- `Nat.toDigitsCore` with enough fuel prepends the base-`b` digits of `n`
(most significant first) to the accumulator. -/
theorem toDigitsCore_eq_digits (b : Nat) (hb : 1 < b) :
    ∀ (fuel n : Nat) (ds : List Char), n < fuel → 0 < n →
      Nat.toDigitsCore b fuel n ds = ((Nat.digits b n).map Nat.digitChar).reverse ++ ds := by
  intro fuel
  induction fuel with
  | zero => intro n ds hfuel _; omega
  | succ fuel ih =>
    intro n ds hfuel hn
    by_cases hdiv : n / b = 0
    · have hdig : Nat.digits b n = [n % b] := by
        rw [Nat.digits_def' hb hn, hdiv, Nat.digits_zero]
      simp [Nat.toDigitsCore, hdiv, hdig]
    · have hn' : 0 < n / b := Nat.pos_of_ne_zero hdiv
      have hfuel' : n / b < fuel := by
        have h1 : n / b < n := Nat.div_lt_self hn hb
        omega
      have hrec := ih (n / b) (Nat.digitChar (n % b) :: ds) hfuel' hn'
      rw [Nat.digits_def' hb hn]
      simp [Nat.toDigitsCore, hdiv, hrec, List.append_assoc]

/-- The characters of `Nat.repr n` for positive `n` are the decimal digits,
most significant first. -/
theorem repr_data_eq_digits (n : Nat) (hn : 0 < n) :
    (Nat.repr n).data = ((Nat.digits 10 n).map Nat.digitChar).reverse := by
  have h := toDigitsCore_eq_digits 10 (by omega) (n + 1) n [] (by omega) hn
  rw [List.append_nil] at h
  show (Nat.toDigitsCore 10 (n + 1) n []).asString.data =
    ((Nat.digits 10 n).map Nat.digitChar).reverse
  rw [h]
  rfl

/-- A decimal representation never contains a dash. -/
theorem repr_no_dash (n : Nat) : '-' ∉ (Nat.repr n).data := by
  cases Nat.eq_zero_or_pos n with
  | inl h => subst h; decide
  | inr h =>
    rw [repr_data_eq_digits n h]
    intro hmem
    rw [List.mem_reverse] at hmem
    obtain ⟨d, hd, hdc⟩ := List.mem_map.mp hmem
    exact digitChar_lt_ten_ne_dash d (Nat.digits_lt_base (by omega) hd) hdc

/-- Lists of digits below ten with the same digit characters are equal. -/
theorem map_digitChar_inj : ∀ (l₁ l₂ : List Nat), (∀ d ∈ l₁, d < 10) → (∀ d ∈ l₂, d < 10) →
    l₁.map Nat.digitChar = l₂.map Nat.digitChar → l₁ = l₂ := by
  intro l₁
  induction l₁ with
  | nil =>
    intro l₂ _ _ h
    cases l₂ with
    | nil => rfl
    | cons b t₂ => simp at h
  | cons a t₁ ih =>
    intro l₂ h₁ h₂ h
    cases l₂ with
    | nil => simp at h
    | cons b t₂ =>
      simp only [List.map_cons, List.cons.injEq] at h
      have hab : a = b := digitChar_inj_lt_ten a (h₁ a (List.mem_cons_self a t₁))
        b (h₂ b (List.mem_cons_self b t₂)) h.1
      subst hab
      rw [ih t₂ (fun d hd => h₁ d (List.mem_cons_of_mem a hd))
        (fun d hd => h₂ d (List.mem_cons_of_mem a hd)) h.2]

/-- Decimal representations are injective. -/
theorem repr_inj {m n : Nat} (h : Nat.repr m = Nat.repr n) : m = n := by
  have hdata : (Nat.repr m).data = (Nat.repr n).data := by rw [h]
  rcases Nat.eq_zero_or_pos m with hm | hm <;> rcases Nat.eq_zero_or_pos n with hn | hn
  · omega
  · subst hm
    rw [repr_data_eq_digits n hn] at hdata
    have h0 : (Nat.repr 0).data = ['0'] := rfl
    rw [h0] at hdata
    have hmap := congrArg List.reverse hdata
    simp only [List.reverse_reverse] at hmap
    have hdig : Nat.digits 10 n = [0] := by
      apply map_digitChar_inj _ _ (fun d hd => Nat.digits_lt_base (by omega) hd)
        (by intro d hd; simp at hd; omega)
      simpa using hmap.symm
    have := congrArg (fun l => Nat.ofDigits 10 l) hdig
    simp only [Nat.ofDigits_digits, Nat.ofDigits_singleton] at this
    omega
  · subst hn
    rw [repr_data_eq_digits m hm] at hdata
    have h0 : (Nat.repr 0).data = ['0'] := rfl
    rw [h0] at hdata
    have hmap := congrArg List.reverse hdata
    simp only [List.reverse_reverse] at hmap
    have hdig : Nat.digits 10 m = [0] := by
      apply map_digitChar_inj _ _ (fun d hd => Nat.digits_lt_base (by omega) hd)
        (by intro d hd; simp at hd; omega)
      simpa using hmap
    have := congrArg (fun l => Nat.ofDigits 10 l) hdig
    simp only [Nat.ofDigits_digits, Nat.ofDigits_singleton] at this
    omega
  · rw [repr_data_eq_digits m hm, repr_data_eq_digits n hn] at hdata
    have hmap := congrArg List.reverse hdata
    simp only [List.reverse_reverse] at hmap
    have hdig := map_digitChar_inj _ _ (fun d hd => Nat.digits_lt_base (by omega) hd)
      (fun d hd => Nat.digits_lt_base (by omega) hd) hmap
    have := congrArg (fun l => Nat.ofDigits 10 l) hdig
    simpa [Nat.ofDigits_digits] using this

/-- A dash-free prefix before the first dash splits a character list
uniquely. -/
theorem append_dash_inj : ∀ (L₁ : List Char) {P₁ L₂ P₂ : List Char}, '-' ∉ L₁ → '-' ∉ L₂ →
    L₁ ++ '-' :: P₁ = L₂ ++ '-' :: P₂ → L₁ = L₂ ∧ P₁ = P₂ := by
  intro L₁
  induction L₁ with
  | nil =>
    intro P₁ L₂ P₂ _ h₂ h
    cases L₂ with
    | nil => simpa using h
    | cons b t₂ =>
      rw [List.nil_append] at h
      injection h with hb htl
      subst hb
      exact absurd (List.mem_cons_self _ _) h₂
  | cons a t₁ ih =>
    intro P₁ L₂ P₂ h₁ h₂ h
    cases L₂ with
    | nil =>
      rw [List.nil_append] at h
      injection h with ha htl
      subst ha
      exact absurd (List.mem_cons_self _ _) h₁
    | cons b t₂ =>
      injection h with hab htl
      subst hab
      have h₁' : '-' ∉ t₁ := fun hm => h₁ (List.mem_cons_of_mem a hm)
      have h₂' : '-' ∉ t₂ := fun hm => h₂ (List.mem_cons_of_mem a hm)
      obtain ⟨hL, hP⟩ := ih h₁' h₂' htl
      exact ⟨by rw [hL], hP⟩

/-- The key `chainId + "-" + preset` determines the pair uniquely. -/
theorem importKey_inj {c d : Nat} {p q : String}
    (h : Nat.repr c ++ "-" ++ p = Nat.repr d ++ "-" ++ q) : c = d ∧ p = q := by
  have hdash : ("-" : String).data = ['-'] := rfl
  have hdata : (Nat.repr c).data ++ '-' :: p.data = (Nat.repr d).data ++ '-' :: q.data := by
    have hd := congrArg String.data h
    simpa [String.data_append, hdash] using hd
  obtain ⟨hL, hP⟩ := append_dash_inj _ (repr_no_dash c) (repr_no_dash d) hdata
  exact ⟨repr_inj (String.ext hL), String.ext hP⟩

/-- Claim C3: `importPerpsMarketProxy` resolves (420, main) and
(84531, competition) to their statically known binding modules and throws an
explicit error for every other pair, never returning an empty or undefined
result. -/
theorem importPerpsMarketProxy_spec :
    importPerpsMarketProxy 420 "main" =
        Except.ok PerpsMarketProxyModule.perpsMarketProxy420Main ∧
      importPerpsMarketProxy 84531 "competition" =
        Except.ok PerpsMarketProxyModule.perpsMarketProxy84531Competition ∧
      ∀ (chainId : Nat) (preset : String),
        ¬(chainId = 420 ∧ preset = "main") →
        ¬(chainId = 84531 ∧ preset = "competition") →
        ∃ e, importPerpsMarketProxy chainId preset = Except.error e := by
  refine ⟨rfl, rfl, ?_⟩
  intro c p h1 h2
  by_cases hk1 : Nat.repr c ++ "-" ++ p = "420-main"
  · have hk1' : Nat.repr c ++ "-" ++ p = Nat.repr 420 ++ "-" ++ "main" := by
      rw [hk1]
      rfl
    exact absurd (importKey_inj hk1') h1
  · by_cases hk2 : Nat.repr c ++ "-" ++ p = "84531-competition"
    · have hk2' : Nat.repr c ++ "-" ++ p = Nat.repr 84531 ++ "-" ++ "competition" := by
        rw [hk2]
        rfl
      exact absurd (importKey_inj hk2') h2
    · refine ⟨"Unsupported chain " ++ Nat.repr c ++ " for PerpsMarketProxy", ?_⟩
      show (if Nat.repr c ++ "-" ++ p = "420-main"
          then Except.ok PerpsMarketProxyModule.perpsMarketProxy420Main
          else if Nat.repr c ++ "-" ++ p = "84531-competition"
          then Except.ok PerpsMarketProxyModule.perpsMarketProxy84531Competition
          else Except.error ("Unsupported chain " ++ Nat.repr c ++ " for PerpsMarketProxy"))
          = Except.error ("Unsupported chain " ++ Nat.repr c ++ " for PerpsMarketProxy")
      rw [if_neg hk1, if_neg hk2]

/-- Claim C3 witness: an unsupported pair throws. -/
theorem importPerpsMarketProxy_spec_witness :
    ¬(7 = 420 ∧ "main" = "main") ∧ ¬(7 = 84531 ∧ "main" = "competition") ∧
      ∃ e, importPerpsMarketProxy 7 "main" = Except.error e :=
  ⟨by decide, by decide,
    importPerpsMarketProxy_spec.2.2 7 "main" (by decide) (by decide)⟩
